import Mathlib

/-!
Shallow embedding of the target-resolution and requirement-decision engine of
`babel-preset-env` (file `src/index.js`).  JavaScript objects used as
string-keyed maps are modelled as association lists; JavaScript values that
can occur in a target specification are modelled by the inductive `JSVal`.
External collaborators (the `browserslist` query resolver, the running node
version, and the `electron-to-chromium` translation table, all of which live
outside the verified file) are packaged in the `Externals` structure and
passed as a parameter.
-/

set_option autoImplicit false

namespace BabelPresetEnv

/-- A JavaScript value as it can appear in a raw `targets` option:
a number (JS numbers modelled as rationals), a string, a boolean,
or an array of strings (only used for `browsers` queries). -/
inductive JSVal where
  | num (value : ℚ)
  | str (value : String)
  | boolean (value : Bool)
  | strList (value : List String)
deriving DecidableEq, Repr

/-- A JavaScript object used as a string-keyed map, in insertion order. -/
abbrev StrMap (α : Type) := List (String × α)

/-- Property read `m[k]`: the value at the first matching key, if any. -/
def lookup {α : Type} : StrMap α → String → Option α
  | [], _ => none
  | (k', v) :: rest, k => if k' = k then some v else lookup rest k

/-- Property write `m[k] = v`: overwrite in place if the key exists
(JS objects keep the original key position), else append. -/
def setKey {α : Type} : StrMap α → String → α → StrMap α
  | [], k, v => [(k, v)]
  | (k', v') :: rest, k, v =>
      if k' = k then (k, v) :: rest else (k', v') :: setKey rest k v

/-- `delete m[k]`. -/
def eraseKey {α : Type} : StrMap α → String → StrMap α
  | [], _ => []
  | (k', v) :: rest, k =>
      if k' = k then eraseKey rest k else (k', v) :: eraseKey rest k

/-- `Object.keys(m)`, in insertion order. -/
def keys {α : Type} (m : StrMap α) : List String :=
  m.map (fun p => p.1)

/-- JavaScript truthiness of a value. -/
def truthyVal : JSVal → Bool
  | .num q => q ≠ 0
  | .str s => s ≠ ""
  | .boolean b => b
  | .strList _ => true

/-- JavaScript truthiness of a possibly-undefined property. -/
def truthyOpt : Option JSVal → Bool
  | some v => truthyVal v
  | none => false

/-- `String(v)` conversion; exact on strings, booleans and integral numbers
(the only shapes electron versions take). -/
def jsValToString : JSVal → String
  | .str s => s
  | .boolean b => if b then "true" else "false"
  | .num q => if q.den = 1 then toString q.num else toString q
  | .strList l => String.intercalate "," l

/-- Split a character list at every occurrence of a separator, as
JavaScript `String.prototype.split` with a one-character separator does. -/
def splitChar (sep : Char) : List Char → List (List Char)
  | [] => [[]]
  | c :: rest =>
    match splitChar sep rest with
    | [] => [[]]
    | g :: gs => if c = sep then [] :: g :: gs else (c :: g) :: gs

/-- `browser.split(" ")`. -/
def splitOnSpace (s : String) : List String :=
  (splitChar ' ' s.data).map String.mk

/-- The natural number denoted by a run of decimal digit characters. -/
def digitsToNat (l : List Char) : ℕ :=
  l.foldl (fun n c => 10 * n + (c.toNat - '0'.toNat)) 0

/-- The longest leading digit run of a character list, as an integer;
`none` when there is none. -/
def parseDigitsLeading (l : List Char) : Option ℤ :=
  match l.takeWhile Char.isDigit with
  | [] => none
  | ds => some (digitsToNat ds : ℤ)

/-- `parseInt(s)`: longest leading (optionally signed) digit run, base 10;
`none` models `NaN`. -/
def parseIntLeading (s : String) : Option ℤ :=
  match s.data with
  | '-' :: rest => (parseDigitsLeading rest).map (fun n => -n)
  | '+' :: rest => parseDigitsLeading rest
  | l => parseDigitsLeading l

/-- `parseInt` applied to a possibly-undefined argument (`parseInt(undefined)` is `NaN`). -/
def parseIntOpt : Option String → Option ℤ
  | none => none
  | some s => parseIntLeading s

/-- `Number(s)` on the strings arising from array coercion: empty string is 0,
a plain digit run is that integer, anything else is `NaN` (`none`). -/
def jsStringToNumber (s : String) : Option ℚ :=
  match s.data with
  | [] => some 0
  | l => if l.all Char.isDigit then some ((digitsToNat l : ℕ) : ℚ) else none

/-- The comparison `v < c` performed by `isPluginRequired` after the string
check: `v` is a non-string JS value, `c` a number; arrays coerce through
their comma-joined string, and a `NaN` comparison is false. -/
def jsLtNum : JSVal → ℚ → Bool
  | .num q, c => decide (q < c)
  | .boolean b, c => decide ((if b then (1 : ℚ) else 0) < c)
  | .strList l, c =>
      match jsStringToNumber (String.intercalate "," l) with
      | some q => decide (q < c)
      | none => false
  | .str _, _ => false

/-- The three throw sites of the source file. -/
inductive JSError where
  /-- "Electron version must be a semver version" -/
  | malformedElectron
  /-- "Electron version ... is either too old or too new" -/
  | unsupportedElectron (version : String)
  /-- "Target version must be a number, '...' was given for '...'" -/
  | stringTarget (environment : String) (version : String)
deriving DecidableEq, Repr

/-- The external collaborators of the engine: the running node version
(`parseFloat(process.versions.node)`), the `browserslist` query resolver,
and the `electron-to-chromium` data table. -/
structure Externals where
  nodeVersion : ℚ
  browserslist : JSVal → List String
  electronToChromium : String → Option JSVal

/-- `isBrowsersQueryValid`: the query is a string or an array. -/
def isBrowsersQueryValid : Option JSVal → Bool
  | some (.str _) => true
  | some (.strList _) => true
  | _ => false

/-- The `browserNameMap` object literal. -/
def browserNameMapList : StrMap String :=
  [("chrome", "chrome"), ("edge", "edge"), ("firefox", "firefox"),
   ("ie", "ie"), ("ios_saf", "ios"), ("safari", "safari")]

/-- `browserNameMap[name]`. -/
def browserNameMap (name : String) : Option String :=
  lookup browserNameMapList name

/-- One step of `getLowestVersions`' reduce body up to the guard:
split a release string on spaces, normalize the browser name, parse the
version; `none` when the guard `normalizedBrowserName && !isNaN(parsed)` fails. -/
def parseRelease (browser : String) : Option (String × ℤ) :=
  match browserNameMap ((splitOnSpace browser).headD ""),
        parseIntOpt ((splitOnSpace browser).get? 1) with
  | some n, some v => some (n, v)
  | _, _ => none

/-- The accumulator update of `getLowestVersions`:
`all[n] = Math.min(all[n] || Infinity, v)`.  Note that a stored value of `0`
is falsy and hence replaced by `Infinity` before taking the minimum. -/
def lowStep (all : StrMap ℤ) (browser : String) : StrMap ℤ :=
  match parseRelease browser with
  | some (n, v) =>
      setKey all n
        (match lookup all n with
         | some c => if c ≠ 0 then min c v else v
         | none => v)
  | none => all

/-- `getLowestVersions`: reduce the release list to a per-browser map. -/
def getLowestVersions (browsers : List String) : StrMap ℤ :=
  browsers.foldl lowStep []

/-- The surviving (normalized-name, parsed-version) rows of a release list. -/
def survivingReleases : List String → List (String × ℤ)
  | [] => []
  | b :: l =>
    match parseRelease b with
    | some p => p :: survivingReleases l
    | none => survivingReleases l

/-- Minimum of a list of integers, `none` on the empty list. -/
def minZ : List ℤ → Option ℤ
  | [] => none
  | v :: vs =>
    match minZ vs with
    | none => some v
    | some m => some (min v m)

/-- The surviving parsed versions recorded for one normalized browser name. -/
def versionsOf (browsers : List String) (name : String) : List ℤ :=
  (survivingReleases browsers).filterMap
    (fun p => if p.1 = name then some p.2 else none)

/-- Written from the spec, for comparison with `getLowestVersions`:
"reduce to the minimum surviving version per normalized name". -/
def specLowestVersion (browsers : List String) (name : String) : Option ℤ :=
  minZ (versionsOf browsers name)

/-- Lift the integer version map produced by the query path into JS values. -/
def mapToJS (m : StrMap ℤ) : StrMap JSVal :=
  m.map (fun p => (p.1, JSVal.num (p.2 : ℚ)))

/-- `mergeBrowsers`: overlay every non-`browsers` key of the processed target
map onto the per-browser query minimums. -/
def mergeBrowsers (fromQuery : StrMap JSVal) (fromTarget : StrMap JSVal) : StrMap JSVal :=
  (keys fromTarget).foldl
    (fun queryObj targKey =>
      if targKey = "browsers" then queryObj
      else setKey queryObj targKey ((lookup fromTarget targKey).getD (JSVal.boolean false)))
    fromQuery

/-- The regex match `/^(\d+\.\d+)/`: the leading `major.minor` digit group. -/
def majorMinor (s : String) : Option String :=
  match s.data.takeWhile Char.isDigit with
  | [] => none
  | d1 =>
    match s.data.drop d1.length with
    | '.' :: rest =>
      match rest.takeWhile Char.isDigit with
      | [] => none
      | d2 => some (String.mk (d1 ++ '.' :: d2))
    | _ => none

/-- `electronVersionToChromeVersion` applied to the stringified version
(the JS code first reassigns `"1"` to `"1.0"`, then matches the leading
`major.minor`, then looks the result up in the translation table with a
truthiness check). -/
def electronVersionToChromeVersion (E : Externals) (semverVer : String) : Except JSError JSVal :=
  match majorMinor (if semverVer = "1" then "1.0" else semverVer) with
  | none => .error .malformedElectron
  | some mm =>
    match E.electronToChromium mm with
    | some result => if truthyVal result then .ok result else .error (.unsupportedElectron mm)
    | none => .error (.unsupportedElectron mm)

/-- The `node === true || node === "current"` rewriting step of `getTargets`. -/
def nodeStep (E : Externals) (targets : StrMap JSVal) : StrMap JSVal :=
  if lookup targets "node" = some (JSVal.boolean true) ∨
     lookup targets "node" = some (JSVal.str "current")
  then setKey targets "node" (JSVal.num E.nodeVersion)
  else targets

/-- The electron-to-chrome rewriting step of `getTargets`: on a truthy
`electron` value, translate it, set `chrome`, and delete `electron`. -/
def electronStep (E : Externals) (t1 : StrMap JSVal) : Except JSError (StrMap JSVal) :=
  if truthyOpt (lookup t1 "electron") then do
    let chromeVer ← electronVersionToChromeVersion E
      (jsValToString ((lookup t1 "electron").getD (JSVal.boolean false)))
    pure (eraseKey (setKey t1 "chrome" chromeVer) "electron")
  else pure t1

/-- The browsers-query step of `getTargets`: on a valid query, resolve it,
take per-browser minimums, and overlay the remaining target keys. -/
def browsersStep (E : Externals) (t2 : StrMap JSVal) : StrMap JSVal :=
  if isBrowsersQueryValid (lookup t2 "browsers") then
    mergeBrowsers
      (mapToJS (getLowestVersions (E.browserslist ((lookup t2 "browsers").getD (JSVal.boolean false)))))
      t2
  else t2

/-- `getTargets`: normalize a raw target map (node shorthand, electron
translation, browsers query). -/
def getTargets (E : Externals) (targets : StrMap JSVal) : Except JSError (StrMap JSVal) := do
  let t2 ← electronStep E (nodeStep E targets)
  pure (browsersStep E t2)

/-- Fail-fast monadic filter, matching `Array.prototype.filter` evaluating its
callback left to right with a thrown exception aborting the whole call. -/
def filterExcept (f : String → Except JSError Bool) : List String → Except JSError (List String)
  | [] => .ok []
  | x :: xs => do
    let b ← f x
    let rest ← filterExcept f xs
    pure (if b then x :: rest else rest)

/-- The filter body of `isPluginRequired` for one targeted environment:
a falsy capability entry (`!plugin[environment]`, i.e. absent or `0`) means
required; otherwise a string-valued target throws, and a numeric one is
compared with strict less-than. -/
def isRequiredForEnvironment (supportedEnvironments : StrMap JSVal) (plugin : StrMap ℚ)
    (environment : String) : Except JSError Bool :=
  match lookup plugin environment with
  | none => .ok true
  | some lowestImplementedVersion =>
    if lowestImplementedVersion = 0 then .ok true
    else
      match lookup supportedEnvironments environment with
      | some (JSVal.str s) => .error (.stringTarget environment s)
      | some v => .ok (jsLtNum v lowestImplementedVersion)
      | none => .ok false

/-- `isPluginRequired`: decide whether one capability entry requires its
transform under the given targets, self-normalizing first when a truthy
`browsers` key is present. -/
def isPluginRequired (E : Externals) (supportedEnvironments : StrMap JSVal)
    (plugin : StrMap ℚ) : Except JSError Bool := do
  let se ←
    if truthyOpt (lookup supportedEnvironments "browsers")
    then getTargets E supportedEnvironments
    else pure supportedEnvironments
  let targetEnvironments := keys se
  if targetEnvironments.length = 0 then pure true
  else do
    let isRequiredForEnvironments ← filterExcept (isRequiredForEnvironment se plugin) targetEnvironments
    pure (decide (isRequiredForEnvironments.length > 0))

/-- The partition produced by `transformIncludesAndExculdes` (sic). -/
structure IncludesExcludes where
  all : List String
  plugins : List String
  builtIns : List String
deriving DecidableEq, Repr

/-- The test `opt.match(/^(es\d+|web)\./)`: built-in names start with
`es<digits>.` or `web.`. -/
def isBuiltInName (s : String) : Bool :=
  match s.data with
  | 'w' :: 'e' :: 'b' :: '.' :: _ => true
  | 'e' :: 's' :: rest =>
    match rest.takeWhile Char.isDigit with
    | [] => false
    | ds =>
      match rest.drop ds.length with
      | '.' :: _ => true
      | _ => false
  | _ => false

/-- `transformIncludesAndExculdes`: partition an include/exclude list into
plugin names and built-in names by the name pattern. -/
def transformIncludesAndExculdes (opts : List String) : IncludesExcludes :=
  { all := opts
    plugins := opts.filter (fun opt => ¬ isBuiltInName opt)
    builtIns := opts.filter (fun opt => isBuiltInName opt) }

/-- One entry of the preset returned to the host: either a configured
`babel-plugin-<name>` unit or the synthetic polyfill-requiring unit. -/
inductive PresetEntry where
  | plugin (name : String) (loose : Bool)
  | polyfillRequire (polyfills : List String) (regenerator : Bool)
deriving DecidableEq, Repr

/-- The return value of `buildPreset`. -/
structure Preset where
  plugins : List PresetEntry
deriving DecidableEq, Repr

/-- The read-only capability and name tables imported by the source file
(`plugins.json`, `built-ins.json`, `default-includes`,
`module-transformations`), treated as pre-supplied data. -/
structure PresetData where
  pluginList : StrMap (StrMap ℚ)
  builtInsList : StrMap (StrMap ℚ)
  defaultInclude : List String
  moduleTransformations : StrMap String

/-- The validated option set handed to `buildPreset` by `normalizeOptions`
(an external collaborator, file `normalize-options.js`).  `moduleType` is
`none` for the literal `false` and `some name` otherwise. -/
structure Options where
  debug : Bool
  loose : Bool
  moduleType : Option String
  useBuiltIns : Bool
  targets : StrMap JSVal
  includeList : List String
  excludeList : List String

/-- The exclude-then-include composition applied to both selections:
`base.filter((p) => excl.indexOf(p) === -1).concat(incl)`. -/
def composeSelection (base excl incl : List String) : List String :=
  base.filter (fun p => ¬ excl.contains p) ++ incl

/-- The transformation selection of `buildPreset`: every plugin name whose
capability entry is required under the targets. -/
def selectedTransformations (E : Externals) (data : PresetData)
    (targets : StrMap JSVal) : Except JSError (List String) :=
  filterExcept
    (fun pluginName => isPluginRequired E targets ((lookup data.pluginList pluginName).getD []))
    (keys data.pluginList)

/-- The polyfill selection of `buildPreset` (only computed under
`useBuiltIns`): required built-ins, plus the default includes, composed with
the built-in exclude and include override sets. -/
def selectedPolyfills (E : Externals) (data : PresetData) (targets : StrMap JSVal)
    (exclude incl : IncludesExcludes) : Except JSError (List String) := do
  let required ← filterExcept
    (fun builtInName => isPluginRequired E targets ((lookup data.builtInsList builtInName).getD []))
    (keys data.builtInsList)
  pure (composeSelection (required ++ data.defaultInclude) exclude.builtIns incl.builtIns)

/-- `buildPreset` after option validation: resolve targets, select
transformations and polyfills, and assemble the ordered plugin list.
Debug logging (a pure console side effect guarded by the process-wide
`hasBeenLogged` latch) is omitted. -/
def buildPreset (E : Externals) (data : PresetData) (vo : Options) : Except JSError Preset := do
  let targets ← getTargets E vo.targets
  let incl := transformIncludesAndExculdes vo.includeList
  let exclude := transformIncludesAndExculdes vo.excludeList
  let transformations ← selectedTransformations E data targets
  let polyfills ←
    if vo.useBuiltIns then do
      let pf ← selectedPolyfills E data targets exclude incl
      pure (some pf)
    else pure none
  let allTransformations := composeSelection transformations exclude.plugins incl.plugins
  let regenerator := allTransformations.contains "transform-regenerator"
  let modulePlugin :=
    match vo.moduleType with
    | none => none
    | some moduleType =>
      match lookup data.moduleTransformations moduleType with
      | some name => if name = "" then none else some name
      | none => none
  let plugins :=
    (match modulePlugin with
     | some name => [PresetEntry.plugin name vo.loose]
     | none => []) ++
    allTransformations.map (fun pluginName => PresetEntry.plugin pluginName vo.loose) ++
    (match polyfills with
     | some pf => [PresetEntry.polyfillRequire pf regenerator]
     | none => [])
  pure { plugins := plugins }

/-! ### Basic association-list lemmas -/

theorem lookup_setKey_self {α : Type} (m : StrMap α) (k : String) (v : α) :
    lookup (setKey m k v) k = some v := by
  induction m with
  | nil => simp [setKey, lookup]
  | cons p rest ih =>
    obtain ⟨a, b⟩ := p
    by_cases h : a = k
    · simp [setKey, h, lookup]
    · simp [setKey, h, lookup, ih]

theorem lookup_setKey_ne {α : Type} (m : StrMap α) {k k' : String} (v : α)
    (h : k' ≠ k) : lookup (setKey m k v) k' = lookup m k' := by
  have hk : ¬ k = k' := fun he => h he.symm
  induction m with
  | nil => simp [setKey, lookup, hk]
  | cons p rest ih =>
    obtain ⟨a, b⟩ := p
    by_cases ha : a = k
    · subst ha
      simp [setKey, lookup, hk]
    · simp [setKey, lookup, ha, ih]

theorem lookup_eraseKey_self {α : Type} (m : StrMap α) (k : String) :
    lookup (eraseKey m k) k = none := by
  induction m with
  | nil => rfl
  | cons p rest ih =>
    obtain ⟨a, b⟩ := p
    by_cases ha : a = k
    · simpa [eraseKey, ha] using ih
    · simpa [eraseKey, lookup, ha] using ih

theorem lookup_eraseKey_ne {α : Type} (m : StrMap α) {k k' : String}
    (h : k' ≠ k) : lookup (eraseKey m k) k' = lookup m k' := by
  induction m with
  | nil => rfl
  | cons p rest ih =>
    obtain ⟨a, b⟩ := p
    by_cases ha : a = k
    · subst ha
      have hak' : ¬ a = k' := fun he => h he.symm
      simpa [eraseKey, lookup, hak'] using ih
    · simp [eraseKey, lookup, ha, ih]

theorem lookup_eq_none_iff {α : Type} (m : StrMap α) (k : String) :
    lookup m k = none ↔ ¬ k ∈ keys m := by
  induction m with
  | nil => simp [lookup, keys]
  | cons p rest ih =>
    obtain ⟨a, b⟩ := p
    by_cases ha : a = k
    · simp [lookup, keys, ha]
    · have hka : ¬ k = a := fun he => ha he.symm
      simp only [lookup, keys, List.map_cons, List.mem_cons, if_neg ha]
      rw [show (List.map (fun p => p.1) rest) = keys rest from rfl, ih]
      constructor
      · intro hn hm
        rcases hm with he | hm
        · exact hka he
        · exact hn hm
      · intro hn hm
        exact hn (Or.inr hm)

theorem mem_keys_of_lookup {α : Type} {m : StrMap α} {k : String} {v : α}
    (h : lookup m k = some v) : k ∈ keys m := by
  by_contra hk
  rw [← lookup_eq_none_iff] at hk
  rw [h] at hk
  exact Option.noConfusion hk

theorem lookup_of_mem_keys {α : Type} {m : StrMap α} {k : String}
    (h : k ∈ keys m) : ∃ v, lookup m k = some v := by
  cases hv : lookup m k with
  | none => exact absurd h ((lookup_eq_none_iff m k).1 hv)
  | some v => exact ⟨v, rfl⟩

theorem lookup_mem {α : Type} {m : StrMap α} {k : String} {v : α}
    (h : lookup m k = some v) : (k, v) ∈ m := by
  induction m with
  | nil => exact absurd h (by simp [lookup])
  | cons p rest ih =>
    obtain ⟨a, b⟩ := p
    by_cases ha : a = k
    · subst ha
      simp [lookup] at h
      simp [h]
    · simp [lookup, ha] at h
      exact List.mem_cons_of_mem _ (ih h)

theorem mem_setKey {α : Type} {m : StrMap α} {k : String} {v : α} {p : String × α}
    (h : p ∈ setKey m k v) : p = (k, v) ∨ p ∈ m := by
  induction m with
  | nil => simpa [setKey] using h
  | cons q rest ih =>
    obtain ⟨a, b⟩ := q
    by_cases ha : a = k
    · simp [setKey, ha] at h
      rcases h with h | h
      · exact Or.inl (by simp [h])
      · exact Or.inr (List.mem_cons_of_mem _ h)
    · simp [setKey, ha] at h
      rcases h with h | h
      · exact Or.inr (by simp [h])
      · rcases ih h with h' | h'
        · exact Or.inl h'
        · exact Or.inr (List.mem_cons_of_mem _ h')

theorem lookup_mapToJS (m : StrMap ℤ) (k : String) :
    lookup (mapToJS m) k = (lookup m k).map (fun v => JSVal.num (v : ℚ)) := by
  induction m with
  | nil => simp [mapToJS, lookup]
  | cons p rest ih =>
    obtain ⟨a, b⟩ := p
    by_cases ha : a = k
    · simp [mapToJS, lookup, ha]
    · simpa [mapToJS, lookup, ha] using ih

/-! ### Lemmas about the browsers-query path -/

theorem parseRelease_name_mem {b : String} {n : String} {v : ℤ}
    (h : parseRelease b = some (n, v)) :
    n ∈ browserNameMapList.map (fun p => p.2) := by
  unfold parseRelease at h
  cases hn : browserNameMap ((splitOnSpace b).headD "") with
  | none => rw [hn] at h; cases hv : parseIntOpt ((splitOnSpace b).get? 1) <;>
      rw [hv] at h <;> exact Option.noConfusion h
  | some n' =>
    cases hv : parseIntOpt ((splitOnSpace b).get? 1) with
    | none => rw [hn, hv] at h; exact Option.noConfusion h
    | some v' =>
      rw [hn, hv] at h
      have hn' : n' = n := by
        have := Option.some.inj h
        exact congrArg Prod.fst this
      exact List.mem_map.2 ⟨_, lookup_mem (m := browserNameMapList) hn, hn'⟩

theorem lowfold_lookup_outside (l : List String) (acc : StrMap ℤ) (k : String)
    (hk : ¬ k ∈ browserNameMapList.map (fun p => p.2)) :
    lookup (l.foldl lowStep acc) k = lookup acc k := by
  induction l generalizing acc with
  | nil => rfl
  | cons b l ih =>
    rw [List.foldl_cons, ih (lowStep acc b)]
    cases hpb : parseRelease b with
    | none => simp [lowStep, hpb]
    | some p =>
      obtain ⟨n, v⟩ := p
      have hn : n ∈ browserNameMapList.map (fun p => p.2) := parseRelease_name_mem hpb
      have hne : k ≠ n := fun he => hk (he ▸ hn)
      simp only [lowStep, hpb]
      exact lookup_setKey_ne _ _ hne

theorem getLowestVersions_lookup_outside (l : List String) (k : String)
    (hk : ¬ k ∈ browserNameMapList.map (fun p => p.2)) :
    lookup (getLowestVersions l) k = none := by
  unfold getLowestVersions
  rw [lowfold_lookup_outside l [] k hk]
  rfl

theorem mergeFold_lookup (t : StrMap JSVal) (k : String) (ks : List String)
    (q : StrMap JSVal) (hks : ∀ j ∈ ks, j ∈ keys t) :
    lookup
      (ks.foldl
        (fun queryObj targKey =>
          if targKey = "browsers" then queryObj
          else setKey queryObj targKey ((lookup t targKey).getD (JSVal.boolean false)))
        q) k =
    if ¬ k = "browsers" ∧ k ∈ ks then lookup t k else lookup q k := by
  induction ks generalizing q with
  | nil => simp
  | cons j ks ih =>
    rw [List.foldl_cons]
    have hks' : ∀ i ∈ ks, i ∈ keys t := fun i hi => hks i (List.mem_cons_of_mem _ hi)
    by_cases hj : j = "browsers"
    · rw [if_pos hj, ih q hks']
      by_cases hb : k = "browsers"
      · rw [if_neg (by simp [hb]), if_neg (by simp [hb])]
      · by_cases hm : k ∈ ks
        · rw [if_pos ⟨hb, hm⟩, if_pos ⟨hb, List.mem_cons_of_mem _ hm⟩]
        · have hkj : ¬ k = j := fun he => hb (he.trans hj)
          rw [if_neg (by intro hc; exact hm hc.2),
              if_neg (by
                intro hc
                rcases List.mem_cons.1 hc.2 with he | hm'
                · exact hkj he
                · exact hm hm')]
    · rw [if_neg hj, ih _ hks']
      by_cases hb : k = "browsers"
      · have hkj : ¬ k = j := fun he => hj (he.symm.trans (he.symm ▸ hb))
        rw [if_neg (by simp [hb]), if_neg (by simp [hb])]
        exact lookup_setKey_ne _ _ hkj
      · by_cases hm : k ∈ ks
        · rw [if_pos ⟨hb, hm⟩, if_pos ⟨hb, List.mem_cons_of_mem _ hm⟩]
        · by_cases hkj : k = j
          · subst hkj
            obtain ⟨v, hv⟩ := lookup_of_mem_keys (hks k (List.mem_cons_self k ks))
            rw [if_neg (by intro hc; exact hm hc.2),
                if_pos ⟨hb, List.mem_cons_self k ks⟩,
                lookup_setKey_self, hv]
            rfl
          · rw [if_neg (by intro hc; exact hm hc.2),
                if_neg (by
                  intro hc
                  rcases List.mem_cons.1 hc.2 with he | hm'
                  · exact hkj he
                  · exact hm hm')]
            exact lookup_setKey_ne _ _ hkj

theorem mergeBrowsers_lookup (q t : StrMap JSVal) (k : String) :
    lookup (mergeBrowsers q t) k =
      if ¬ k = "browsers" ∧ k ∈ keys t then lookup t k else lookup q k :=
  mergeFold_lookup t k (keys t) q (fun _ h => h)

/-! ### Lemmas about fail-fast filtering -/

/-- Whether an `Except` computation failed. -/
def isErr {α : Type} : Except JSError α → Bool
  | .error _ => true
  | .ok _ => false

/-- The boolean produced by a non-failing filter body (`false` as a junk
value on errors). -/
def okValue : Except JSError Bool → Bool
  | .ok b => b
  | .error _ => false

theorem filterExcept_eq_ok (f : String → Except JSError Bool) (l : List String)
    (h : ∀ x ∈ l, isErr (f x) = false) :
    filterExcept f l = .ok (l.filter (fun x => okValue (f x))) := by
  induction l with
  | nil => rfl
  | cons x xs ih =>
    have hx : isErr (f x) = false := h x (List.mem_cons_self x xs)
    cases hfx : f x with
    | error e => rw [hfx] at hx; exact absurd hx (by simp [isErr])
    | ok b =>
      have hxs : ∀ y ∈ xs, isErr (f y) = false :=
        fun y hy => h y (List.mem_cons_of_mem _ hy)
      show (f x).bind _ = _
      rw [hfx, ih hxs]
      simp [Except.bind, List.filter_cons, hfx, okValue]

theorem filterExcept_isErr_iff (f : String → Except JSError Bool) (l : List String) :
    isErr (filterExcept f l) = true ↔ ∃ x, x ∈ l ∧ isErr (f x) = true := by
  induction l with
  | nil => simp [filterExcept, isErr]
  | cons x xs ih =>
    cases hfx : f x with
    | error e =>
      constructor
      · intro _
        exact ⟨x, List.mem_cons_self x xs, by simp [hfx, isErr]⟩
      · intro _
        show isErr ((f x).bind _) = true
        rw [hfx]
        rfl
    | ok b =>
      have hbind : filterExcept f (x :: xs) =
          (filterExcept f xs).bind (fun rest => pure (if b then x :: rest else rest)) := by
        show (f x).bind _ = _
        rw [hfx]
        rfl
      cases hrest : filterExcept f xs with
      | error e =>
        rw [hbind, hrest]
        constructor
        · intro _
          obtain ⟨y, hy, hye⟩ := ih.1 (by rw [hrest]; rfl)
          exact ⟨y, List.mem_cons_of_mem _ hy, hye⟩
        · intro _
          rfl
      | ok rest =>
        rw [hbind, hrest]
        constructor
        · intro hcontra
          exact absurd hcontra (by simp [Except.bind, isErr, pure, Except.pure])
        · rintro ⟨y, hy, hye⟩
          rcases List.mem_cons.1 hy with he | hm
          · subst he
            rw [hfx] at hye
            exact absurd hye (by simp [isErr])
          · have : isErr (filterExcept f xs) = true := ih.2 ⟨y, hm, hye⟩
            rw [hrest] at this
            exact absurd this (by simp [isErr])

theorem filter_length_pos_any (l : List String) (g : String → Bool) :
    decide (0 < (l.filter g).length) = l.any g := by
  induction l with
  | nil => rfl
  | cons x xs ih =>
    cases hx : g x with
    | true => simp [List.filter_cons, hx]
    | false => simpa [List.filter_cons, hx] using ih

/-! ### The minimum property of `getLowestVersions` -/

/-- Combine an already-accumulated minimum with the minimum of the remaining
versions. -/
def mergeMin : Option ℤ → Option ℤ → Option ℤ
  | x, none => x
  | none, some m => some m
  | some a, some m => some (min a m)

theorem lowfold_min (l : List String) (acc : StrMap ℤ)
    (hacc : ∀ p ∈ acc, 0 < p.2)
    (h : ∀ p ∈ survivingReleases l, 0 < p.2) (name : String) :
    lookup (l.foldl lowStep acc) name =
      mergeMin (lookup acc name) (specLowestVersion l name) := by
  induction l generalizing acc with
  | nil =>
    show lookup acc name = mergeMin (lookup acc name) none
    cases lookup acc name <;> rfl
  | cons b l ih =>
    rw [List.foldl_cons]
    cases hpb : parseRelease b with
    | none =>
      have hsurv : survivingReleases (b :: l) = survivingReleases l := by
        simp [survivingReleases, hpb]
      have hlow : lowStep acc b = acc := by simp [lowStep, hpb]
      rw [hlow, ih acc hacc (fun p hp => h p (by rw [hsurv]; exact hp))]
      unfold specLowestVersion versionsOf
      rw [hsurv]
    | some p =>
      obtain ⟨n, v⟩ := p
      have hsurv : survivingReleases (b :: l) = (n, v) :: survivingReleases l := by
        simp [survivingReleases, hpb]
      have hv : 0 < v := by
        have := h (n, v) (by rw [hsurv]; exact List.mem_cons_self _ _)
        simpa using this
      have hl : ∀ p ∈ survivingReleases l, 0 < p.2 :=
        fun p hp => h p (by rw [hsurv]; exact List.mem_cons_of_mem _ hp)
      set newV : ℤ :=
        (match lookup acc n with
         | some c => if c ≠ 0 then min c v else v
         | none => v) with hnewV
      have hlow : lowStep acc b = setKey acc n newV := by
        simp [lowStep, hpb, hnewV]
      have hacc' : ∀ p ∈ setKey acc n newV, 0 < p.2 := by
        intro p hp
        rcases mem_setKey hp with hp' | hp'
        · subst hp'
          show 0 < newV
          rw [hnewV]
          cases hc : lookup acc n with
          | none => simpa using hv
          | some c =>
            have hcpos : 0 < c := by
              have := hacc (n, c) (lookup_mem hc)
              simpa using this
            simp only [if_pos (by exact ne_of_gt hcpos)]
            exact lt_min hcpos hv
        · exact hacc p hp'
      rw [hlow, ih (setKey acc n newV) hacc' hl]
      have hver : versionsOf (b :: l) name =
          (if n = name then v :: versionsOf l name else versionsOf l name) := by
        unfold versionsOf
        rw [hsurv]
        by_cases hn : n = name
        · simp [List.filterMap_cons, hn]
        · simp [List.filterMap_cons, hn]
      by_cases hn : n = name
      · subst hn
        rw [lookup_setKey_self]
        unfold specLowestVersion
        rw [hver, if_pos rfl]
        have hminz : ∀ vs : List ℤ, minZ (v :: vs) = mergeMin (some v) (minZ vs) := by
          intro vs
          cases hm : minZ vs with
          | none => simp only [minZ]; rw [hm]; rfl
          | some m => simp only [minZ]; rw [hm]; rfl
        rw [hminz (versionsOf l n)]
        generalize minZ (versionsOf l n) = s
        cases hc : lookup acc n with
        | none =>
          have hveq : newV = v := by rw [hnewV, hc]
          rw [hveq]
          cases s <;> rfl
        | some c =>
          have hcpos : 0 < c := by
            have := hacc (n, c) (lookup_mem hc)
            simpa using this
          have hveq : newV = min c v := by
            rw [hnewV, hc]
            simp [ne_of_gt hcpos]
          rw [hveq]
          cases s with
          | none => rfl
          | some m =>
            show some (min (min c v) m) = some (min c (min v m))
            rw [min_assoc]
      · rw [lookup_setKey_ne _ _ (fun he => hn he.symm)]
        unfold specLowestVersion
        rw [hver, if_neg hn]

theorem getLowestVersions_min (l : List String)
    (h : ∀ p ∈ survivingReleases l, 0 < p.2) (name : String) :
    lookup (getLowestVersions l) name = specLowestVersion l name := by
  unfold getLowestVersions
  rw [lowfold_min l [] (by intro p hp; cases hp) h name]
  show mergeMin none _ = _
  cases specLowestVersion l name <;> rfl

/-! ### Spec-side requirement formulas and sample environments -/

/-- Written from the spec, for comparison with `isPluginRequired`:
"`isRequired` is true iff there exists e in T such that `C[e]` is undefined
or `T[e] < C[e]`". -/
def specIsRequired (T : StrMap JSVal) (C : StrMap ℚ) : Bool :=
  (keys T).any (fun e =>
    match lookup C e with
    | none => true
    | some c =>
      match lookup T e with
      | some (JSVal.num q) => decide (q < c)
      | _ => false)

/-- The per-environment requirement test as the code actually decides it on
numeric targets: a capability entry that is absent or `0` counts as
"not implemented", otherwise strict less-than. -/
def specRequiredForEnvAmended (T : StrMap JSVal) (C : StrMap ℚ) (e : String) : Bool :=
  match lookup C e with
  | none => true
  | some c =>
    if c = 0 then true
    else
      match lookup T e with
      | some (JSVal.num q) => decide (q < c)
      | _ => false

/-- The amended requirement formula: some targeted environment has an
absent-or-zero capability entry or a strictly smaller targeted version. -/
def specIsRequiredAmended (T : StrMap JSVal) (C : StrMap ℚ) : Bool :=
  (keys T).any (specRequiredForEnvAmended T C)

/-- An environment with an empty query resolver and an empty electron table. -/
def noExternals : Externals where
  nodeVersion := 8
  browserslist := fun _ => []
  electronToChromium := fun _ => none

/-- A small concrete environment used to instantiate theorems. -/
def sampleExternals : Externals where
  nodeVersion := 8
  browserslist := fun v =>
    match v with
    | JSVal.str "chrome 50" => ["chrome 50"]
    | _ => []
  electronToChromium := fun v =>
    match v with
    | "1.0" => some (JSVal.num 50)
    | _ => none

theorem anyCongr {l : List String} {f g : String → Bool}
    (h : ∀ x ∈ l, f x = g x) : l.any f = l.any g := by
  induction l with
  | nil => rfl
  | cons x xs ih =>
    simp only [List.any_cons]
    rw [h x (List.mem_cons_self x xs),
        ih (fun y hy => h y (List.mem_cons_of_mem _ hy))]

theorem isPluginRequired_no_browsers (E : Externals) (T : StrMap JSVal) (C : StrMap ℚ)
    (h : truthyOpt (lookup T "browsers") = false) :
    isPluginRequired E T C =
      if (keys T).length = 0 then .ok true
      else (filterExcept (isRequiredForEnvironment T C) (keys T)) >>=
        (fun r => pure (decide (r.length > 0))) := by
  unfold isPluginRequired
  rw [h]
  simp
  rfl

theorem isRequiredForEnvironment_isErr (T : StrMap JSVal) (C : StrMap ℚ) (e : String) :
    isErr (isRequiredForEnvironment T C e) = true ↔
      ((∃ s, lookup T e = some (JSVal.str s)) ∧ ∃ c, lookup C e = some c ∧ c ≠ 0) := by
  unfold isRequiredForEnvironment
  cases hC : lookup C e with
  | none => simp [isErr]
  | some c =>
    cases hT : lookup T e with
    | none => by_cases hc : c = 0 <;> simp [isErr, hc]
    | some v =>
      cases v with
      | str s => by_cases hc : c = 0 <;> simp [isErr, hc]
      | num q => by_cases hc : c = 0 <;> simp [isErr, hc]
      | boolean b => by_cases hc : c = 0 <;> simp [isErr, hc]
      | strList ls => by_cases hc : c = 0 <;> simp [isErr, hc]

/-! ### Claim C1 -/

/-- Claim C1 as frozen is refuted at a capability entry with value `0`:
`isPluginRequired {chrome: 50} {chrome: 0}` returns `true` because
`!plugin[environment]` treats the `0` entry as "not implemented", while the
claim's formula (entry defined and `50 >= 0`) predicts `false`. -/
theorem c1_counterexample :
    isPluginRequired noExternals [("chrome", JSVal.num 50)] [("chrome", (0 : ℚ))] =
      .ok true ∧
    specIsRequired [("chrome", JSVal.num 50)] [("chrome", (0 : ℚ))] = false := by
  constructor <;> rfl

/-- Claim C1 (amended): over a target map with no `browsers` key and numeric
values, `isPluginRequired` returns `true` when the map is empty, and
otherwise returns `true` iff some targeted environment has a capability
entry that is absent or `0`, or a targeted version strictly below the
capability entry. -/
theorem c1_requirement_iff (E : Externals) (T : StrMap JSVal) (C : StrMap ℚ)
    (hb : lookup T "browsers" = none)
    (hnum : ∀ p ∈ T, ∃ q : ℚ, p.2 = JSVal.num q) :
    isPluginRequired E T C = .ok ((keys T).isEmpty || specIsRequiredAmended T C) := by
  have htr : truthyOpt (lookup T "browsers") = false := by rw [hb]; rfl
  rw [isPluginRequired_no_browsers E T C htr]
  by_cases hk : (keys T).length = 0
  · rw [if_pos hk]
    have hempty : (keys T).isEmpty = true := by
      cases hKT : keys T with
      | nil => rfl
      | cons a as => rw [hKT] at hk; exact absurd hk (by simp)
    rw [hempty]
    rfl
  · rw [if_neg hk]
    have herr : ∀ x ∈ keys T, isErr (isRequiredForEnvironment T C x) = false := by
      intro x hx
      obtain ⟨v, hv⟩ := lookup_of_mem_keys hx
      obtain ⟨q, hq⟩ := hnum (x, v) (lookup_mem hv)
      cases hfx : isErr (isRequiredForEnvironment T C x) with
      | false => rfl
      | true =>
        obtain ⟨⟨s, hs⟩, _⟩ := (isRequiredForEnvironment_isErr T C x).1 hfx
        rw [hv, Option.some.injEq] at hs
        rw [show (x, v).2 = v from rfl] at hq
        rw [hq] at hs
        exact JSVal.noConfusion hs
    rw [filterExcept_eq_ok _ _ herr]
    have hempty : (keys T).isEmpty = false := by
      cases hKT : keys T with
      | nil => rw [hKT] at hk; exact absurd rfl hk
      | cons a as => rfl
    rw [hempty, Bool.false_or]
    have hany : (keys T).any (fun x => okValue (isRequiredForEnvironment T C x)) =
        specIsRequiredAmended T C := by
      unfold specIsRequiredAmended
      apply anyCongr
      intro x hx
      obtain ⟨v, hv⟩ := lookup_of_mem_keys hx
      obtain ⟨q, hq⟩ := hnum (x, v) (lookup_mem hv)
      rw [show (x, v).2 = v from rfl] at hq
      unfold isRequiredForEnvironment specRequiredForEnvAmended
      cases hC : lookup C x with
      | none => rfl
      | some c =>
        by_cases hc : c = 0
        · simp [hc, okValue]
        · simp [hc, okValue, hv, hq, jsLtNum]
    show pure (decide
        (((keys T).filter (fun x => okValue (isRequiredForEnvironment T C x))).length > 0)) =
      Except.ok (specIsRequiredAmended T C)
    rw [show (decide
        (((keys T).filter (fun x => okValue (isRequiredForEnvironment T C x))).length > 0)) =
        (keys T).any (fun x => okValue (isRequiredForEnvironment T C x)) from
      filter_length_pos_any (keys T) _]
    rw [hany]
    rfl

/-- Concrete instance of the amended C1: targeting chrome 50 with a
capability first supported in chrome 51 requires the transform. -/
theorem c1_requirement_iff_witness :
    isPluginRequired noExternals [("chrome", JSVal.num 50)] [("chrome", (51 : ℚ))] =
      .ok true := by
  have h := c1_requirement_iff noExternals [("chrome", JSVal.num 50)]
    [("chrome", (51 : ℚ))] rfl
    (by
      intro p hp
      rcases List.mem_cons.1 hp with he | hm
      · exact ⟨50, by rw [he]⟩
      · cases hm)
  rw [h]
  rfl

/-! ### Claim C9 -/

/-- Claim C9 as frozen is refuted: the target map `{ie: "8"}` has a string
version, but against an empty capability entry `isPluginRequired` returns
`ok true` instead of failing, because `!plugin[environment]` short-circuits
before the string check. -/
theorem c9_counterexample :
    isPluginRequired noExternals [("ie", JSVal.str "8")] ([] : StrMap ℚ) = .ok true := by
  rfl

/-- Claim C9 (amended): for a target map without a truthy `browsers` key,
`isPluginRequired` fails iff some targeted environment has a string-valued
target version and a truthy (present and nonzero) capability entry. -/
theorem c9_string_error_iff (E : Externals) (T : StrMap JSVal) (C : StrMap ℚ)
    (h : truthyOpt (lookup T "browsers") = false) :
    isErr (isPluginRequired E T C) = true ↔
      ∃ e, e ∈ keys T ∧ (∃ s, lookup T e = some (JSVal.str s)) ∧
        ∃ c, lookup C e = some c ∧ c ≠ 0 := by
  rw [isPluginRequired_no_browsers E T C h]
  by_cases hk : (keys T).length = 0
  · rw [if_pos hk]
    have hKT : keys T = [] := List.length_eq_zero.mp hk
    constructor
    · intro hcontra
      exact absurd hcontra (by simp [isErr, pure, Except.pure])
    · rintro ⟨e, he, _⟩
      rw [hKT] at he
      cases he
  · rw [if_neg hk]
    cases hf : filterExcept (isRequiredForEnvironment T C) (keys T) with
    | error err =>
      constructor
      · intro _
        have : isErr (filterExcept (isRequiredForEnvironment T C) (keys T)) = true := by
          rw [hf]; rfl
        obtain ⟨x, hx, hxe⟩ := (filterExcept_isErr_iff _ _).1 this
        obtain ⟨hs, hc⟩ := (isRequiredForEnvironment_isErr T C x).1 hxe
        exact ⟨x, hx, hs, hc⟩
      · intro _
        rfl
    | ok r =>
      constructor
      · intro hcontra
        exact absurd hcontra (by simp [isErr, Bind.bind, Except.bind, pure, Except.pure])
      · rintro ⟨e, he, hs, hc⟩
        have : isErr (filterExcept (isRequiredForEnvironment T C) (keys T)) = true :=
          (filterExcept_isErr_iff _ _).2
            ⟨e, he, (isRequiredForEnvironment_isErr T C e).2 ⟨hs, hc⟩⟩
        rw [hf] at this
        exact absurd this (by simp [isErr])

/-- Concrete instance of the amended C9: `{ie: "8"}` against a capability
entry `{ie: 9}` does fail with the string-target error. -/
theorem c9_string_error_iff_witness :
    isErr (isPluginRequired noExternals [("ie", JSVal.str "8")] [("ie", (9 : ℚ))]) = true := by
  rw [c9_string_error_iff noExternals [("ie", JSVal.str "8")] [("ie", (9 : ℚ))] rfl]
  exact ⟨"ie", by simp [keys], ⟨"8", rfl⟩, 9, rfl, by norm_num⟩

/-! ### Claim C10 -/

/-- Claim C10 as frozen is refuted when a second targeted environment
triggers the string-type error: with targets `{a: "x", e: 1}` and
capabilities `{a: 3, e: 0}`, the `e -> 0` entry is present but the whole
call throws on `a` instead of returning `true`. -/
theorem c10_counterexample :
    isPluginRequired noExternals [("a", JSVal.str "x"), ("e", JSVal.num 1)]
      [("a", (3 : ℚ)), ("e", (0 : ℚ))] =
      .error (.stringTarget "a" "x") := by
  rfl

/-- Claim C10 (amended): a capability entry of `0` is treated exactly like an
absent entry; if some targeted environment has capability `0` and no other
targeted environment raises the string-type error (every string-valued
target has an absent-or-zero capability entry), the call returns `true`,
whatever (even a string) the target version of that environment is. -/
theorem c10_zero_as_absent (E : Externals) (T : StrMap JSVal) (C : StrMap ℚ) (e : String)
    (hb : lookup T "browsers" = none)
    (he : e ∈ keys T)
    (hC : lookup C e = some 0)
    (hothers : ∀ x ∈ keys T, (∃ s, lookup T x = some (JSVal.str s)) →
        ∀ c, lookup C x = some c → c = 0) :
    isPluginRequired E T C = .ok true := by
  have htr : truthyOpt (lookup T "browsers") = false := by rw [hb]; rfl
  rw [isPluginRequired_no_browsers E T C htr]
  have hk : ¬ (keys T).length = 0 := by
    intro hk0
    rw [List.length_eq_zero.mp hk0] at he
    cases he
  rw [if_neg hk]
  have herr : ∀ x ∈ keys T, isErr (isRequiredForEnvironment T C x) = false := by
    intro x hx
    cases hfx : isErr (isRequiredForEnvironment T C x) with
    | false => rfl
    | true =>
      obtain ⟨hs, ⟨c, hc, hcne⟩⟩ := (isRequiredForEnvironment_isErr T C x).1 hfx
      exact absurd (hothers x hx hs c hc) hcne
  rw [filterExcept_eq_ok _ _ herr]
  have hmem : e ∈ (keys T).filter (fun x => okValue (isRequiredForEnvironment T C x)) := by
    apply List.mem_filter.2
    refine ⟨he, ?_⟩
    unfold isRequiredForEnvironment
    rw [hC]
    rfl
  have hpos : 0 < ((keys T).filter (fun x => okValue (isRequiredForEnvironment T C x))).length :=
    List.length_pos.2 (fun hnil => by rw [hnil] at hmem; cases hmem)
  show pure (decide _) = Except.ok true
  rw [decide_eq_true hpos]
  rfl

/-- Concrete instance of the amended C10: `{e: "whatever"}` against the
capability entry `{e: 0}` returns `true` without inspecting the string. -/
theorem c10_zero_as_absent_witness :
    isPluginRequired noExternals [("e", JSVal.str "whatever")] [("e", (0 : ℚ))] = .ok true :=
  c10_zero_as_absent noExternals [("e", JSVal.str "whatever")] [("e", (0 : ℚ))] "e"
    rfl
    (by simp [keys])
    rfl
    (by
      intro x hx hs c hc
      have hxe : x = "e" := by simpa [keys] using hx
      subst hxe
      have : c = 0 := by
        have h0 : lookup [("e", (0 : ℚ))] "e" = some 0 := rfl
        rw [h0] at hc
        exact (Option.some.inj hc).symm
      exact this)

/-! ### Claim C4 -/

/-- Claim C4 as frozen is refuted on a release list containing a version
`0`: `getLowestVersions ["chrome 0", "chrome 5"]` yields `{chrome: 5}`
because the accumulator read `all[name] || Infinity` treats the stored `0`
as absent, while the minimum of the surviving versions is `0`. -/
theorem c4_counterexample :
    getLowestVersions ["chrome 0", "chrome 5"] = [("chrome", (5 : ℤ))] ∧
    specLowestVersion ["chrome 0", "chrome 5"] "chrome" = some 0 := by
  constructor <;> rfl

/-- Claim C4 (amended): normalization keeps exactly the rows whose name is
in the name map and whose version parses, and — provided every surviving
parsed version is positive, as real browser versions are — maps each
surviving name to the minimum of its surviving parsed versions. -/
theorem c4_lowest_versions_min (l : List String)
    (h : ∀ p ∈ survivingReleases l, 0 < p.2) (name : String) :
    lookup (getLowestVersions l) name = specLowestVersion l name :=
  getLowestVersions_min l h name

/-- The claim's own example: `["chrome 50", "chrome 60", "ie 8"]`
normalizes to `{chrome: 50, ie: 8}`. -/
theorem c4_lowest_versions_min_witness :
    lookup (getLowestVersions ["chrome 50", "chrome 60", "ie 8"]) "chrome" = some 50 ∧
    lookup (getLowestVersions ["chrome 50", "chrome 60", "ie 8"]) "ie" = some 8 ∧
    getLowestVersions ["chrome 50", "chrome 60", "ie 8"] = [("chrome", (50 : ℤ)), ("ie", (8 : ℤ))] :=
  ⟨(c4_lowest_versions_min ["chrome 50", "chrome 60", "ie 8"] (by decide) "chrome").trans rfl,
   (c4_lowest_versions_min ["chrome 50", "chrome 60", "ie 8"] (by decide) "ie").trans rfl,
   rfl⟩

/-! ### Claim C5 -/

/-- Claim C5 confirmed: the merged result keeps every directly specified
non-`browsers` key at its direct value, falls back to the query-derived
minimums elsewhere, and the claim's example
`{browsers: "chrome 50", node: 10}` normalizes to `{chrome: 50, node: 10}`. -/
theorem c5_merge_browsers (q t : StrMap JSVal) (E : Externals)
    (hquery : E.browserslist (JSVal.str "chrome 50") = ["chrome 50"]) :
    (∀ k, ¬ k = "browsers" → k ∈ keys t → lookup (mergeBrowsers q t) k = lookup t k) ∧
    (∀ k, ¬ k ∈ keys t → lookup (mergeBrowsers q t) k = lookup q k) ∧
    getTargets E [("browsers", JSVal.str "chrome 50"), ("node", JSVal.num 10)] =
      .ok [("chrome", JSVal.num 50), ("node", JSVal.num 10)] := by
  refine ⟨?_, ?_, ?_⟩
  · intro k hkb hkt
    rw [mergeBrowsers_lookup, if_pos ⟨hkb, hkt⟩]
  · intro k hkt
    rw [mergeBrowsers_lookup, if_neg (fun hc => hkt hc.2)]
  · have h1 : getTargets E [("browsers", JSVal.str "chrome 50"), ("node", JSVal.num 10)] =
        .ok (mergeBrowsers
          (mapToJS (getLowestVersions (E.browserslist (JSVal.str "chrome 50"))))
          [("browsers", JSVal.str "chrome 50"), ("node", JSVal.num 10)]) := rfl
    rw [h1, hquery]
    rfl

/-- Concrete instance of C5 under the sample environment. -/
theorem c5_merge_browsers_witness :
    lookup (mergeBrowsers [("chrome", JSVal.num 50)]
      [("browsers", JSVal.str "chrome 50"), ("node", JSVal.num 10)]) "node" =
      some (JSVal.num 10) ∧
    getTargets sampleExternals [("browsers", JSVal.str "chrome 50"), ("node", JSVal.num 10)] =
      .ok [("chrome", JSVal.num 50), ("node", JSVal.num 10)] := by
  have h := c5_merge_browsers [("chrome", JSVal.num 50)]
    [("browsers", JSVal.str "chrome 50"), ("node", JSVal.num 10)] sampleExternals rfl
  exact ⟨(h.1 "node" (by decide) (by simp [keys])).trans rfl, h.2.2⟩

/-! ### Claim C6 -/

/-- Claim C6 confirmed: for a truthy `electron` target value, the literal
`"1"` is read as `"1.0"`; a value with no leading `major.minor` shape fails
with the malformed-version error; a well-formed value with no truthy
translation entry fails with the unsupported-version error; and a
translated value yields a result with `chrome` set to the translation and
the `electron` key removed. -/
theorem c6_electron_translation (E : Externals) (T : StrMap JSVal) (v : JSVal)
    (hv : lookup T "electron" = some v) (htr : truthyVal v = true) :
    (majorMinor (if jsValToString v = "1" then "1.0" else jsValToString v) = none →
        getTargets E T = .error .malformedElectron) ∧
    (∀ mm, majorMinor (if jsValToString v = "1" then "1.0" else jsValToString v) = some mm →
        truthyOpt (E.electronToChromium mm) = false →
        getTargets E T = .error (.unsupportedElectron mm)) ∧
    (∀ mm w, majorMinor (if jsValToString v = "1" then "1.0" else jsValToString v) = some mm →
        E.electronToChromium mm = some w → truthyVal w = true →
        ∃ R, getTargets E T = .ok R ∧ lookup R "chrome" = some w ∧
          lookup R "electron" = none) := by
  have h1e : lookup (nodeStep E T) "electron" = some v := by
    unfold nodeStep
    split
    · exact (lookup_setKey_ne T _ (by decide)).trans hv
    · exact hv
  have hgt : getTargets E T =
      (electronStep E (nodeStep E T)) >>= (fun t2 => pure (browsersStep E t2)) := rfl
  have hestep : electronStep E (nodeStep E T) =
      (electronVersionToChromeVersion E (jsValToString v)) >>=
        (fun chromeVer =>
          pure (eraseKey (setKey (nodeStep E T) "chrome" chromeVer) "electron")) := by
    unfold electronStep
    rw [h1e]
    rw [if_pos (show truthyOpt (some v) = true from htr)]
    rfl
  refine ⟨?_, ?_, ?_⟩
  · intro hmaj
    have hevc : electronVersionToChromeVersion E (jsValToString v) =
        .error .malformedElectron := by
      unfold electronVersionToChromeVersion
      rw [hmaj]
    rw [hgt, hestep, hevc]
    rfl
  · intro mm hmaj htab
    have hevc : electronVersionToChromeVersion E (jsValToString v) =
        .error (.unsupportedElectron mm) := by
      unfold electronVersionToChromeVersion
      rw [hmaj]
      cases htb : E.electronToChromium mm with
      | none => simp [htb]
      | some w =>
        have hw : truthyVal w = false := by rw [htb] at htab; exact htab
        simp [htb, hw]
    rw [hgt, hestep, hevc]
    rfl
  · intro mm w hmaj htab htw
    have hevc : electronVersionToChromeVersion E (jsValToString v) = .ok w := by
      unfold electronVersionToChromeVersion
      rw [hmaj]
      simp [htab, htw]
    refine ⟨browsersStep E (eraseKey (setKey (nodeStep E T) "chrome" w) "electron"),
      ?_, ?_, ?_⟩
    · rw [hgt, hestep, hevc]
      rfl
    · have hc : lookup (eraseKey (setKey (nodeStep E T) "chrome" w) "electron") "chrome" =
          some w :=
        (lookup_eraseKey_ne _ (by decide)).trans (lookup_setKey_self _ _ _)
      unfold browsersStep
      split
      · rw [mergeBrowsers_lookup, if_pos ⟨by decide, mem_keys_of_lookup hc⟩]
        exact hc
      · exact hc
    · have helec : lookup (eraseKey (setKey (nodeStep E T) "chrome" w) "electron") "electron" =
          none := lookup_eraseKey_self _ _
      unfold browsersStep
      split
      · rw [mergeBrowsers_lookup,
            if_neg (fun hc => (lookup_eq_none_iff _ _).1 helec hc.2)]
        rw [lookup_mapToJS, getLowestVersions_lookup_outside _ _ (by decide)]
        rfl
      · exact helec

/-- The claim's own examples under the sample translation table
(`"1.0" -> 50`): `{electron: "1"}` normalizes with `chrome` set and
`electron` gone, and the unmapped `{electron: "99.9"}` fails. -/
theorem c6_electron_translation_witness :
    (∃ R, getTargets sampleExternals [("electron", JSVal.str "1")] = .ok R ∧
      lookup R "chrome" = some (JSVal.num 50) ∧ lookup R "electron" = none) ∧
    getTargets sampleExternals [("electron", JSVal.str "99.9")] =
      .error (.unsupportedElectron "99.9") := by
  constructor
  · exact (c6_electron_translation sampleExternals [("electron", JSVal.str "1")]
      (JSVal.str "1") rfl (by decide)).2.2 "1.0" (JSVal.num 50) (by decide) rfl (by decide)
  · exact (c6_electron_translation sampleExternals [("electron", JSVal.str "99.9")]
      (JSVal.str "99.9") rfl (by decide)).2.1 "99.9" (by decide) rfl

/-! ### Claim C7 -/

/-- Claim C7 as frozen is refuted: `getTargets` itself accepts the target
map `{ie: "8"}`, whose string value should — per the claim — make
normalization fail; the string passes through unchanged. -/
theorem c7_counterexample :
    getTargets noExternals [("ie", JSVal.str "8")] = .ok [("ie", JSVal.str "8")] := by
  rfl

/-- Claim C7 (amended): `getTargets` performs no string-value check at all —
a string version under a non-special key passes through normalization
unchanged, and the error for it is raised only later, by
`isPluginRequired`, when that environment is compared against a truthy
capability entry. -/
theorem c7_string_deferred (E : Externals) (k s : String) (c : ℚ)
    (hkn : ¬ k = "node") (hke : ¬ k = "electron") (hkb : ¬ k = "browsers")
    (hc : ¬ c = 0) :
    getTargets E [(k, JSVal.str s)] = .ok [(k, JSVal.str s)] ∧
    isPluginRequired E [(k, JSVal.str s)] [(k, c)] =
      .error (.stringTarget k s) := by
  have hlk : ∀ k', ¬ k = k' → lookup [(k, JSVal.str s)] k' = none := by
    intro k' hk'
    show (if k = k' then some (JSVal.str s) else none) = none
    rw [if_neg hk']
  constructor
  · have hns : nodeStep E [(k, JSVal.str s)] = [(k, JSVal.str s)] := by
      unfold nodeStep
      rw [hlk "node" hkn]
      rw [if_neg (by rintro (h | h) <;> cases h)]
    have hes : electronStep E [(k, JSVal.str s)] = pure [(k, JSVal.str s)] := by
      unfold electronStep
      rw [hlk "electron" hke]
      rfl
    have hbs : browsersStep E [(k, JSVal.str s)] = [(k, JSVal.str s)] := by
      unfold browsersStep
      rw [hlk "browsers" hkb]
      rfl
    calc getTargets E [(k, JSVal.str s)]
        = (electronStep E (nodeStep E [(k, JSVal.str s)])) >>=
            (fun t2 => pure (browsersStep E t2)) := rfl
      _ = .ok (browsersStep E [(k, JSVal.str s)]) := by rw [hns, hes]; rfl
      _ = .ok [(k, JSVal.str s)] := by rw [hbs]
  · have htr : truthyOpt (lookup [(k, JSVal.str s)] "browsers") = false := by
      rw [hlk "browsers" hkb]
      rfl
    rw [isPluginRequired_no_browsers E _ _ htr]
    rw [if_neg (by
      show ¬ (keys [(k, JSVal.str s)]).length = 0
      simp [keys])]
    have henv : isRequiredForEnvironment [(k, JSVal.str s)] [(k, c)] k =
        .error (.stringTarget k s) := by
      have hlkc : lookup [(k, c)] k = some c := by simp [lookup]
      have hlks : lookup [(k, JSVal.str s)] k = some (JSVal.str s) := by simp [lookup]
      unfold isRequiredForEnvironment
      simp [hlkc, hlks, hc]
    show (filterExcept (isRequiredForEnvironment [(k, JSVal.str s)] [(k, c)]) [k]) >>= _ = _
    show ((isRequiredForEnvironment [(k, JSVal.str s)] [(k, c)] k).bind _) >>= _ = _
    rw [henv]
    rfl

/-- Concrete instance of the amended C7: `{ie: "8"}` survives `getTargets`
and fails in `isPluginRequired` against the capability entry `{ie: 9}`. -/
theorem c7_string_deferred_witness :
    getTargets noExternals [("ie", JSVal.str "8")] = .ok [("ie", JSVal.str "8")] ∧
    isPluginRequired noExternals [("ie", JSVal.str "8")] [("ie", (9 : ℚ))] =
      .error (.stringTarget "ie" "8") :=
  c7_string_deferred noExternals "ie" "8" 9 (by decide) (by decide) (by decide) (by norm_num)

/-! ### Claim C8 -/

/-- Claim C8 as frozen is refuted: a malformed `browsers` value (here the
number `4`) is not a valid query, so `getTargets` succeeds and returns the
map unchanged — with the `browsers` key still present. -/
theorem c8_counterexample :
    getTargets noExternals [("browsers", JSVal.num 4)] = .ok [("browsers", JSVal.num 4)] := by
  rfl

/-- Claim C8 (amended): when `getTargets` succeeds, the `electron` key is
absent provided the input `electron` value was truthy, and the `browsers`
key is absent provided the input `browsers` value was a valid query;
values of other (non-special) input keys pass through completely unchanged,
so string values can survive normalization. -/
theorem c8_normalization_keys (E : Externals) (T R : StrMap JSVal)
    (h : getTargets E T = .ok R) :
    (truthyOpt (lookup T "electron") = true → lookup R "electron" = none) ∧
    (isBrowsersQueryValid (lookup T "browsers") = true → lookup R "browsers" = none) ∧
    (∀ k, k ∈ keys T → ¬ k = "node" → ¬ k = "chrome" → ¬ k = "electron" →
      ¬ k = "browsers" → lookup R k = lookup T k) := by
  have f1 : ∀ k', ¬ k' = "node" → lookup (nodeStep E T) k' = lookup T k' := by
    intro k' hk'
    unfold nodeStep
    split
    · exact lookup_setKey_ne T _ hk'
    · rfl
  have hgt : getTargets E T =
      (electronStep E (nodeStep E T)) >>= (fun t2 => pure (browsersStep E t2)) := rfl
  have key : ∃ t2, R = browsersStep E t2 ∧
      (truthyOpt (lookup T "electron") = true → lookup t2 "electron" = none) ∧
      lookup t2 "browsers" = lookup T "browsers" ∧
      (∀ k, ¬ k = "node" → ¬ k = "chrome" → ¬ k = "electron" →
        lookup t2 k = lookup T k) := by
    by_cases htre : truthyOpt (lookup (nodeStep E T) "electron") = true
    · have hes : electronStep E (nodeStep E T) =
          (electronVersionToChromeVersion E
             (jsValToString ((lookup (nodeStep E T) "electron").getD (JSVal.boolean false)))) >>=
            (fun chromeVer =>
              pure (eraseKey (setKey (nodeStep E T) "chrome" chromeVer) "electron")) := by
        unfold electronStep
        rw [if_pos htre]
      cases hevc : electronVersionToChromeVersion E
          (jsValToString ((lookup (nodeStep E T) "electron").getD (JSVal.boolean false))) with
      | error e =>
        rw [hgt, hes, hevc] at h
        exact absurd h (by simp [Bind.bind, Except.bind])
      | ok w =>
        rw [hgt, hes, hevc] at h
        have h' : Except.ok
            (browsersStep E (eraseKey (setKey (nodeStep E T) "chrome" w) "electron")) =
            Except.ok R := h
        refine ⟨eraseKey (setKey (nodeStep E T) "chrome" w) "electron",
          (Except.ok.inj h').symm, ?_, ?_, ?_⟩
        · intro _
          exact lookup_eraseKey_self _ _
        · calc lookup (eraseKey (setKey (nodeStep E T) "chrome" w) "electron") "browsers"
              = lookup (setKey (nodeStep E T) "chrome" w) "browsers" :=
                lookup_eraseKey_ne _ (by decide)
            _ = lookup (nodeStep E T) "browsers" := lookup_setKey_ne _ _ (by decide)
            _ = lookup T "browsers" := f1 "browsers" (by decide)
        · intro k hkn hkc hke
          calc lookup (eraseKey (setKey (nodeStep E T) "chrome" w) "electron") k
              = lookup (setKey (nodeStep E T) "chrome" w) k := lookup_eraseKey_ne _ hke
            _ = lookup (nodeStep E T) k := lookup_setKey_ne _ _ hkc
            _ = lookup T k := f1 k hkn
    · have hes : electronStep E (nodeStep E T) = pure (nodeStep E T) := by
        unfold electronStep
        rw [if_neg htre]
      rw [hgt, hes] at h
      have h' : Except.ok (browsersStep E (nodeStep E T)) = Except.ok R := h
      refine ⟨nodeStep E T, (Except.ok.inj h').symm, ?_,
        f1 "browsers" (by decide), fun k hkn _ _ => f1 k hkn⟩
      intro htre'
      rw [f1 "electron" (by decide)] at htre
      exact absurd htre' htre
  obtain ⟨t2, hR, he2, hb2, hk2⟩ := key
  refine ⟨?_, ?_, ?_⟩
  · intro htre
    have he : lookup t2 "electron" = none := he2 htre
    rw [hR]
    unfold browsersStep
    split
    · rw [mergeBrowsers_lookup,
          if_neg (fun hc => (lookup_eq_none_iff _ _).1 he hc.2),
          lookup_mapToJS, getLowestVersions_lookup_outside _ _ (by decide)]
      rfl
    · exact he
  · intro hbq
    rw [hR]
    unfold browsersStep
    rw [hb2, if_pos hbq]
    rw [mergeBrowsers_lookup, if_neg (fun hc => hc.1 rfl),
        lookup_mapToJS, getLowestVersions_lookup_outside _ _ (by decide)]
    rfl
  · intro k hkT hkn hkc hke hkb
    obtain ⟨v, hv⟩ := lookup_of_mem_keys hkT
    have h2 : lookup t2 k = lookup T k := hk2 k hkn hkc hke
    rw [hR]
    unfold browsersStep
    split
    · rw [mergeBrowsers_lookup, if_pos ⟨hkb, mem_keys_of_lookup (h2.trans hv)⟩]
      exact h2
    · exact h2

/-- Concrete instance of the amended C8: normalizing
`{electron: "1", ie: 8}` removes `electron` and keeps `ie` untouched. -/
theorem c8_normalization_keys_witness :
    lookup [("ie", JSVal.num 8), ("chrome", JSVal.num 50)] "electron" = none ∧
    lookup [("ie", JSVal.num 8), ("chrome", JSVal.num 50)] "ie" = some (JSVal.num 8) := by
  have h := c8_normalization_keys sampleExternals
    [("electron", JSVal.str "1"), ("ie", JSVal.num 8)]
    [("ie", JSVal.num 8), ("chrome", JSVal.num 50)] (by rfl)
  exact ⟨h.1 rfl,
    (h.2.2 "ie" (by simp [keys]) (by decide) (by decide) (by decide) (by decide)).trans rfl⟩

/-! ### Claims C2 and C3 -/

theorem ok_bind {α β : Type} (a : α) (f : α → Except JSError β) :
    (Except.ok a >>= f) = f a := rfl

theorem error_bind {α β : Type} (e : JSError) (f : α → Except JSError β) :
    ((Except.error e : Except JSError α) >>= f) = Except.error e := rfl

/-- The sample capability tables used to instantiate the preset-builder
theorems. -/
def sampleData : PresetData where
  pluginList := [("transform-regenerator", [("chrome", 50)]),
                 ("transform-other", [("chrome", 10)])]
  builtInsList := [("es6.map", [("chrome", 51)])]
  defaultInclude := ["web.timers"]
  moduleTransformations := [("commonjs", "transform-es2015-modules-commonjs")]

/-- A sample validated option set: chrome 40 targeted, commonjs modules,
built-ins enabled, no overrides. -/
def sampleOptions : Options where
  debug := false
  loose := false
  moduleType := some "commonjs"
  useBuiltIns := true
  targets := [("chrome", JSVal.num 40)]
  includeList := []
  excludeList := []

/-- A sample validated option set with overlapping include and exclude
overrides in both partitions. -/
def overrideOptions : Options where
  debug := false
  loose := true
  moduleType := none
  useBuiltIns := true
  targets := [("chrome", JSVal.num 40)]
  includeList := ["feature-x", "es6.map"]
  excludeList := ["feature-x", "es6.map"]

/-- Claim C2 confirmed (for module-transform tables without falsy entries,
as the shipped table is): a successful `buildPreset` returns, in order, the
optional module-transform unit configured with `loose`, then every selected
transformation after exclude-then-include composition configured with
`loose`, then — exactly when `useBuiltIns` is set — one final
polyfill-requiring unit whose `regenerator` flag is set iff
`"transform-regenerator"` is among the selected transformations. -/
theorem c2_preset_assembly (E : Externals) (data : PresetData) (vo : Options) (r : Preset)
    (hmt : ∀ p ∈ data.moduleTransformations, ¬ p.2 = "")
    (h : buildPreset E data vo = .ok r) :
    ∃ targets transformations polyfillsOpt,
      getTargets E vo.targets = .ok targets ∧
      selectedTransformations E data targets = .ok transformations ∧
      (vo.useBuiltIns = true → ∃ pf,
        selectedPolyfills E data targets (transformIncludesAndExculdes vo.excludeList)
          (transformIncludesAndExculdes vo.includeList) = .ok pf ∧
        polyfillsOpt = some pf) ∧
      (vo.useBuiltIns = false → polyfillsOpt = none) ∧
      r.plugins =
        (match vo.moduleType with
         | some moduleType =>
           (match lookup data.moduleTransformations moduleType with
            | some name => [PresetEntry.plugin name vo.loose]
            | none => [])
         | none => []) ++
        (composeSelection transformations
            (transformIncludesAndExculdes vo.excludeList).plugins
            (transformIncludesAndExculdes vo.includeList).plugins).map
          (fun pluginName => PresetEntry.plugin pluginName vo.loose) ++
        (match polyfillsOpt with
         | some pf => [PresetEntry.polyfillRequire pf
             ((composeSelection transformations
                 (transformIncludesAndExculdes vo.excludeList).plugins
                 (transformIncludesAndExculdes vo.includeList).plugins).contains
               "transform-regenerator")]
         | none => []) := by
  unfold buildPreset at h
  cases hT : getTargets E vo.targets with
  | error e =>
    rw [hT] at h
    exact Except.noConfusion
      (show (Except.error e : Except JSError Preset) = Except.ok r from h)
  | ok targets =>
    rw [hT] at h
    simp only [ok_bind] at h
    cases hTr : selectedTransformations E data targets with
    | error e =>
      rw [hTr] at h
      exact Except.noConfusion
        (show (Except.error e : Except JSError Preset) = Except.ok r from h)
    | ok transformations =>
      rw [hTr] at h
      simp only [ok_bind] at h
      have hmodule :
          (match
            (match vo.moduleType with
             | none => none
             | some moduleType =>
               match lookup data.moduleTransformations moduleType with
               | some name => if name = "" then none else some name
               | none => none) with
           | some name => [PresetEntry.plugin name vo.loose]
           | none => ([] : List PresetEntry)) =
          (match vo.moduleType with
           | some moduleType =>
             (match lookup data.moduleTransformations moduleType with
              | some name => [PresetEntry.plugin name vo.loose]
              | none => [])
           | none => []) := by
        cases vo.moduleType with
        | none => rfl
        | some moduleType =>
          cases hlu : lookup data.moduleTransformations moduleType with
          | none => simp [hlu]
          | some name =>
            have hne : ¬ name = "" := hmt (moduleType, name) (lookup_mem hlu)
            simp [hlu, hne]
      cases hUB : vo.useBuiltIns with
      | false =>
        rw [hUB] at h
        have h' : Except.ok
            { plugins :=
                (match
                  (match vo.moduleType with
                   | none => none
                   | some moduleType =>
                     match lookup data.moduleTransformations moduleType with
                     | some name => if name = "" then none else some name
                     | none => none) with
                 | some name => [PresetEntry.plugin name vo.loose]
                 | none => ([] : List PresetEntry)) ++
                (composeSelection transformations
                    (transformIncludesAndExculdes vo.excludeList).plugins
                    (transformIncludesAndExculdes vo.includeList).plugins).map
                  (fun pluginName => PresetEntry.plugin pluginName vo.loose) ++
                ([] : List PresetEntry) } = Except.ok r := h
        refine ⟨targets, transformations, none, rfl, hTr,
          (fun hc => Bool.noConfusion hc), (fun _ => rfl), ?_⟩
        rw [← Except.ok.inj h', ← hmodule]
      | true =>
        rw [hUB] at h
        cases hPf : selectedPolyfills E data targets
            (transformIncludesAndExculdes vo.excludeList)
            (transformIncludesAndExculdes vo.includeList) with
        | error e =>
          rw [hPf] at h
          exact Except.noConfusion
            (show (Except.error e : Except JSError Preset) = Except.ok r from h)
        | ok pf =>
          rw [hPf] at h
          have h' : Except.ok
              { plugins :=
                (match
                  (match vo.moduleType with
                   | none => none
                   | some moduleType =>
                     match lookup data.moduleTransformations moduleType with
                     | some name => if name = "" then none else some name
                     | none => none) with
                 | some name => [PresetEntry.plugin name vo.loose]
                 | none => ([] : List PresetEntry)) ++
                (composeSelection transformations
                    (transformIncludesAndExculdes vo.excludeList).plugins
                    (transformIncludesAndExculdes vo.includeList).plugins).map
                  (fun pluginName => PresetEntry.plugin pluginName vo.loose) ++
                  [PresetEntry.polyfillRequire pf
                    ((composeSelection transformations
                        (transformIncludesAndExculdes vo.excludeList).plugins
                        (transformIncludesAndExculdes vo.includeList).plugins).contains
                      "transform-regenerator")] } = Except.ok r := h
          refine ⟨targets, transformations, some pf, rfl, hTr,
            (fun _ => ⟨pf, hPf, rfl⟩), (fun hc => Bool.noConfusion hc), ?_⟩
          rw [← Except.ok.inj h', ← hmodule]

/-- The preset produced by the sample data and options: module transform
first, then the selected transformation, then the polyfill unit with the
regenerator flag set. -/
def samplePreset : Preset where
  plugins := [PresetEntry.plugin "transform-es2015-modules-commonjs" false,
              PresetEntry.plugin "transform-regenerator" false,
              PresetEntry.polyfillRequire ["es6.map", "web.timers"] true]

/-- Concrete instance of C2 on the sample data. -/
theorem c2_preset_assembly_witness :
    (∀ p ∈ sampleData.moduleTransformations, ¬ p.2 = "") ∧
    buildPreset sampleExternals sampleData sampleOptions = .ok samplePreset ∧
    (∃ targets transformations polyfillsOpt,
      getTargets sampleExternals sampleOptions.targets = .ok targets ∧
      selectedTransformations sampleExternals sampleData targets = .ok transformations ∧
      (sampleOptions.useBuiltIns = true → ∃ pf,
        selectedPolyfills sampleExternals sampleData targets
          (transformIncludesAndExculdes sampleOptions.excludeList)
          (transformIncludesAndExculdes sampleOptions.includeList) = .ok pf ∧
        polyfillsOpt = some pf) ∧
      (sampleOptions.useBuiltIns = false → polyfillsOpt = none) ∧
      samplePreset.plugins =
        (match sampleOptions.moduleType with
         | some moduleType =>
           (match lookup sampleData.moduleTransformations moduleType with
            | some name => [PresetEntry.plugin name sampleOptions.loose]
            | none => [])
         | none => []) ++
        (composeSelection transformations
            (transformIncludesAndExculdes sampleOptions.excludeList).plugins
            (transformIncludesAndExculdes sampleOptions.includeList).plugins).map
          (fun pluginName => PresetEntry.plugin pluginName sampleOptions.loose) ++
        (match polyfillsOpt with
         | some pf => [PresetEntry.polyfillRequire pf
             ((composeSelection transformations
                 (transformIncludesAndExculdes sampleOptions.excludeList).plugins
                 (transformIncludesAndExculdes sampleOptions.includeList).plugins).contains
               "transform-regenerator")]
         | none => [])) :=
  ⟨by decide, by rfl,
   c2_preset_assembly sampleExternals sampleData sampleOptions samplePreset
     (by decide) (by rfl)⟩

/-- Claim C3 confirmed: a name present in both the include and the exclude
list ends up in the final selection of its partition — exclusion filters
the base selection first and inclusion is appended afterwards, for both the
transformation composition and the polyfill composition. -/
theorem c3_include_overrides_exclude (E : Externals) (data : PresetData) (vo : Options)
    (r : Preset) (name : String)
    (h : buildPreset E data vo = .ok r)
    (hinc : name ∈ vo.includeList) (_hexc : name ∈ vo.excludeList) :
    (isBuiltInName name = false → PresetEntry.plugin name vo.loose ∈ r.plugins) ∧
    (isBuiltInName name = true → vo.useBuiltIns = true →
      ∃ pf reg, PresetEntry.polyfillRequire pf reg ∈ r.plugins ∧ name ∈ pf) := by
  have hinclPlugins : isBuiltInName name = false →
      name ∈ (transformIncludesAndExculdes vo.includeList).plugins := by
    intro hbi
    exact List.mem_filter.2 ⟨hinc, by simp [hbi]⟩
  have hinclBuiltIns : isBuiltInName name = true →
      name ∈ (transformIncludesAndExculdes vo.includeList).builtIns := by
    intro hbi
    exact List.mem_filter.2 ⟨hinc, hbi⟩
  have hmapmem : ∀ ts : List String, isBuiltInName name = false →
      PresetEntry.plugin name vo.loose ∈
        (composeSelection ts
            (transformIncludesAndExculdes vo.excludeList).plugins
            (transformIncludesAndExculdes vo.includeList).plugins).map
          (fun pluginName => PresetEntry.plugin pluginName vo.loose) := by
    intro ts hbi
    refine List.mem_map.2 ⟨name, ?_, rfl⟩
    exact List.mem_append.2 (Or.inr (hinclPlugins hbi))
  unfold buildPreset at h
  cases hT : getTargets E vo.targets with
  | error e =>
    rw [hT] at h
    exact Except.noConfusion
      (show (Except.error e : Except JSError Preset) = Except.ok r from h)
  | ok targets =>
    rw [hT] at h
    simp only [ok_bind] at h
    cases hTr : selectedTransformations E data targets with
    | error e =>
      rw [hTr] at h
      exact Except.noConfusion
        (show (Except.error e : Except JSError Preset) = Except.ok r from h)
    | ok transformations =>
      rw [hTr] at h
      simp only [ok_bind] at h
      cases hUB : vo.useBuiltIns with
      | false =>
        rw [hUB] at h
        have h' : Except.ok
            { plugins :=
                (match
                  (match vo.moduleType with
                   | none => none
                   | some moduleType =>
                     match lookup data.moduleTransformations moduleType with
                     | some name => if name = "" then none else some name
                     | none => none) with
                 | some name => [PresetEntry.plugin name vo.loose]
                 | none => ([] : List PresetEntry)) ++
                (composeSelection transformations
                    (transformIncludesAndExculdes vo.excludeList).plugins
                    (transformIncludesAndExculdes vo.includeList).plugins).map
                  (fun pluginName => PresetEntry.plugin pluginName vo.loose) ++
                ([] : List PresetEntry) } = Except.ok r := h
        have hrp := congrArg Preset.plugins (Except.ok.inj h')
        constructor
        · intro hbi
          rw [← hrp]
          exact List.mem_append.2
            (Or.inl (List.mem_append.2 (Or.inr (hmapmem transformations hbi))))
        · intro _ hc
          exact Bool.noConfusion hc
      | true =>
        rw [hUB] at h
        cases hPf : selectedPolyfills E data targets
            (transformIncludesAndExculdes vo.excludeList)
            (transformIncludesAndExculdes vo.includeList) with
        | error e =>
          rw [hPf] at h
          exact Except.noConfusion
            (show (Except.error e : Except JSError Preset) = Except.ok r from h)
        | ok pf =>
          rw [hPf] at h
          have h' : Except.ok
              { plugins :=
                  (match
                    (match vo.moduleType with
                     | none => none
                     | some moduleType =>
                       match lookup data.moduleTransformations moduleType with
                       | some name => if name = "" then none else some name
                       | none => none) with
                   | some name => [PresetEntry.plugin name vo.loose]
                   | none => ([] : List PresetEntry)) ++
                  (composeSelection transformations
                      (transformIncludesAndExculdes vo.excludeList).plugins
                      (transformIncludesAndExculdes vo.includeList).plugins).map
                    (fun pluginName => PresetEntry.plugin pluginName vo.loose) ++
                  [PresetEntry.polyfillRequire pf
                    ((composeSelection transformations
                        (transformIncludesAndExculdes vo.excludeList).plugins
                        (transformIncludesAndExculdes vo.includeList).plugins).contains
                      "transform-regenerator")] } = Except.ok r := h
          have hrp := congrArg Preset.plugins (Except.ok.inj h')
          constructor
          · intro hbi
            rw [← hrp]
            exact List.mem_append.2
              (Or.inl (List.mem_append.2 (Or.inr (hmapmem transformations hbi))))
          · intro hbi _
            unfold selectedPolyfills at hPf
            cases hReq : filterExcept
                (fun builtInName =>
                  isPluginRequired E targets ((lookup data.builtInsList builtInName).getD []))
                (keys data.builtInsList) with
            | error e =>
              rw [hReq] at hPf
              exact Except.noConfusion
                (show (Except.error e : Except JSError (List String)) = Except.ok pf from hPf)
            | ok required =>
              rw [hReq] at hPf
              have hpf' : Except.ok
                  (composeSelection (required ++ data.defaultInclude)
                    (transformIncludesAndExculdes vo.excludeList).builtIns
                    (transformIncludesAndExculdes vo.includeList).builtIns) =
                  Except.ok pf := hPf
              refine ⟨pf,
                (composeSelection transformations
                    (transformIncludesAndExculdes vo.excludeList).plugins
                    (transformIncludesAndExculdes vo.includeList).plugins).contains
                  "transform-regenerator", ?_, ?_⟩
              · rw [← hrp]
                exact List.mem_append.2 (Or.inr (List.mem_cons_self _ _))
              · rw [← Except.ok.inj hpf']
                exact List.mem_append.2 (Or.inr (hinclBuiltIns hbi))

/-- The preset produced by the sample data under the overlapping overrides:
the excluded-and-included plugin name and built-in name both survive. -/
def overridePreset : Preset where
  plugins := [PresetEntry.plugin "transform-regenerator" true,
              PresetEntry.plugin "feature-x" true,
              PresetEntry.polyfillRequire ["web.timers", "es6.map"] true]

/-- Concrete instance of C3: `feature-x` (a plugin name) and `es6.map`
(a built-in name), both excluded and included, appear in the result. -/
theorem c3_include_overrides_exclude_witness :
    PresetEntry.plugin "feature-x" overrideOptions.loose ∈ overridePreset.plugins ∧
    (∃ pf reg, PresetEntry.polyfillRequire pf reg ∈ overridePreset.plugins ∧
      "es6.map" ∈ pf) := by
  have h1 := c3_include_overrides_exclude sampleExternals sampleData overrideOptions
    overridePreset "feature-x" (by rfl) (by decide) (by decide)
  have h2 := c3_include_overrides_exclude sampleExternals sampleData overrideOptions
    overridePreset "es6.map" (by rfl) (by decide) (by decide)
  exact ⟨h1.1 (by decide), h2.2 (by decide) (by decide)⟩

end BabelPresetEnv
